import Mathlib

/-!
Verification of the manapoolsheet repository.

The Python sources (`manapoolsheet.py`, `picklist_gui.py`,
`quick_fulfillment_updater.py`) are shallowly embedded below: pure helpers
become Lean functions, stateful code becomes explicit state passing, and
external effects (HTTP requests, the filesystem) become explicit oracle
parameters together with a counter of network calls.  Machine-level detail
that the programs never rely on (Unicode case tables beyond ASCII, IEEE-754
rounding of price strings) is modelled by exact arithmetic over `ℚ`.  String
primitives are re-implemented structurally over `List Char` so that every
definition evaluates inside the kernel.
-/

namespace PyModel

/-- Numeric value of a list of decimal digit characters, most significant first. -/
def decDigitsVal (cs : List Char) : Nat :=
  cs.foldl (fun n c => n * 10 + (c.toNat - 48)) 0

/-- All characters are decimal digits. -/
def allDigits (cs : List Char) : Bool := cs.all Char.isDigit

/-- Lexicographic-by-codepoint comparison of character lists; this is exactly
how Python compares strings. -/
def charListLe : List Char → List Char → Bool
  | [], _ => true
  | _ :: _, [] => false
  | a :: as, b :: bs =>
    if a.toNat < b.toNat then true
    else if b.toNat < a.toNat then false
    else charListLe as bs

/-- Python string `<=`. -/
def strLe (a b : String) : Bool := charListLe a.toList b.toList

/-- Python `str.lower()` (ASCII case mapping, faithful on the data the
programs handle). -/
def lower (s : String) : String := String.mk (s.toList.map Char.toLower)

/-- Python `str.upper()` (ASCII case mapping). -/
def upper (s : String) : String := String.mk (s.toList.map Char.toUpper)

/-- Python `str.strip()`: remove leading and trailing whitespace. -/
def strip (s : String) : String :=
  String.mk (((s.toList.dropWhile Char.isWhitespace).reverse.dropWhile Char.isWhitespace).reverse)

/-- Python `str.rstrip()`: remove trailing whitespace. -/
def rstrip (s : String) : String :=
  String.mk ((s.toList.reverse.dropWhile Char.isWhitespace).reverse)

/-- Replace every occurrence of `pat` (non-empty) by `rep`, scanning left to
right; `fuel` bounds the recursion and is instantiated with the length of the
scanned list, which always suffices. -/
def replaceAux (pat rep : List Char) : Nat → List Char → List Char
  | 0, s => s
  | _ + 1, [] => []
  | fuel + 1, c :: rest =>
    if pat.isPrefixOf (c :: rest) then rep ++ replaceAux pat rep fuel ((c :: rest).drop pat.length)
    else c :: replaceAux pat rep fuel rest

/-- Python `str.replace(pat, rep)`.  The programs never call `replace` with an
empty pattern, so that case is mapped to the identity. -/
def pyReplace (s pat rep : String) : String :=
  if pat = "" then s
  else String.mk (replaceAux pat.toList rep.toList s.toList.length s.toList)

/-- Split at the first occurrence of `pat`, returning the parts before and
after it, or `none` when `pat` does not occur. -/
def splitFirst (pat : List Char) : List Char → Option (List Char × List Char)
  | [] => if pat = [] then some ([], []) else none
  | c :: rest =>
    if pat.isPrefixOf (c :: rest) then some ([], (c :: rest).drop pat.length)
    else (splitFirst pat rest).map (fun p => (c :: p.1, p.2))

/-- Model of a signed decimal integer literal as accepted by Python `int(...)`
(optional sign followed by at least one digit). -/
def parseSignedInt (cs : List Char) : Option Int :=
  match cs with
  | '-' :: rest => if rest ≠ [] ∧ allDigits rest then some (-(decDigitsVal rest : Int)) else none
  | '+' :: rest => if rest ≠ [] ∧ allDigits rest then some ((decDigitsVal rest : Int)) else none
  | other => if other ≠ [] ∧ allDigits other then some ((decDigitsVal other : Int)) else none

/-- Model of Python `int(s)` on decimal string input: surrounding whitespace is
stripped, then an optionally signed digit string is accepted. -/
def pyInt (s : String) : Option Int := parseSignedInt (strip s).toList

/-- Mantissa of a Python float literal: digits with at most one embedded dot,
holding at least one digit overall.  The value is exact (over `ℚ`). -/
def parseMantissa (cs : List Char) : Option ℚ :=
  let ip := cs.takeWhile (fun c => c != '.')
  let rest := cs.dropWhile (fun c => c != '.')
  match rest with
  | [] => if ip ≠ [] ∧ allDigits ip then some ((decDigitsVal ip : ℚ)) else none
  | _ :: fr =>
    if (ip ++ fr) ≠ [] ∧ allDigits (ip ++ fr) ∧ ¬ fr.contains '.' then
      some ((decDigitsVal (ip ++ fr) : ℚ) / ((10 : ℚ) ^ fr.length))
    else none

/-- Optionally signed mantissa. -/
def parseSignedMantissa : List Char → Option ℚ
  | '-' :: rest => (parseMantissa rest).map Neg.neg
  | '+' :: rest => parseMantissa rest
  | cs => parseMantissa cs

/-- Model of Python `float(s)` on decimal literals (optional sign, digits with
an optional dot, optional exponent).  The result is the exact rational value;
the repository only ever compares and prints these numbers, so exact
arithmetic is a faithful model of the float values it handles. -/
def pyFloat (s : String) : Option ℚ :=
  let cs := (strip s).toList
  let mant := cs.takeWhile (fun c => c != 'e' && c != 'E')
  let rest := cs.dropWhile (fun c => c != 'e' && c != 'E')
  match rest with
  | [] => parseSignedMantissa mant
  | _ :: ex =>
    match parseSignedInt ex, parseSignedMantissa mant with
    | some e, some m => some (m * (10 : ℚ) ^ e)
    | _, _ => none

end PyModel

namespace Sheet

open PyModel

/-- Embedding of the `Card` dataclass of `manapoolsheet.py`. -/
structure Card where
  name : String
  set_name : String
  set_code : String
  collector_number : String
  quantity : String
  condition : String
  rarity : String
  finish : String
  location : String
  image_url : String
  price : String
  card_type : String := ""
  colors : String := ""
deriving Repr, DecidableEq

/-- Embedding of `parse_price`: strip dollar signs and commas and parse a
float, with every failure (empty, "N/A", unparsable) collapsing to `0.0`. -/
def parse_price (price_str : String) : ℚ :=
  if price_str ≠ "" ∧ price_str ≠ "N/A" then
    ((pyFloat (pyReplace (pyReplace price_str "$" "") "," "")).getD 0)
  else 0

/-- Embedding of `parse_quantity`: `int(quantity_str)` with `1` on failure. -/
def parse_quantity (quantity_str : String) : Int :=
  (pyInt quantity_str).getD 1

/-- Embedding of `sanitize_for_filename`: keep alphanumerics, space, dash and
underscore, strip trailing whitespace, then replace spaces by underscores.
(`Char.isAlphanum` models Python `str.isalnum` on the ASCII inputs the
pipeline handles.) -/
def sanitize_for_filename (text : String) : String :=
  let safe_text :=
    rstrip (String.mk (text.toList.filter (fun c => c.isAlphanum || c == ' ' || c == '-' || c == '_')))
  pyReplace safe_text " " "_"

/-- Path component of a URL, modelling `urllib.parse.urlparse(url).path` for
the absolute http(s) URLs and bare paths the program handles: the fragment and
query are cut off, and for a URL with a scheme and authority the path starts
at the first slash after the authority. -/
def urlparse_path (url : String) : String :=
  let noFrag := url.toList.takeWhile (fun c => c != '#')
  let noQuery := noFrag.takeWhile (fun c => c != '?')
  match splitFirst [':', '/', '/'] noQuery with
  | some (_, rest) => String.mk (rest.dropWhile (fun c => c != '/'))
  | none => String.mk noQuery

/-- Extension part of `os.path.splitext`: the suffix of the final path
component starting at its last dot, empty when there is no dot or when all
characters before that dot are themselves dots (leading dots belong to the
root, as for `.gitignore`). -/
def splitext_ext (p : String) : String :=
  let base := (p.toList.reverse.takeWhile (fun c => c != '/')).reverse
  let tailLen := (base.reverse.takeWhile (fun c => c != '.')).length
  if tailLen = base.length then ""
  else
    let dotIdx := base.length - tailLen - 1
    if (base.take dotIdx).any (fun c => c != '.') then String.mk (base.drop dotIdx) else ""

/-- Embedding of `infer_file_extension`: extension of the URL path, with
`".jpg"` as the fallback for an empty extension. -/
def infer_file_extension (image_url : String) : String :=
  let e := splitext_ext (urlparse_path image_url)
  if e = "" then ".jpg" else e

/-- Embedding of `build_scryfall_queries`.  The Python parameter
`collector_number` is an optional string whose `None` and `""` values behave
identically under truthiness, so it is modelled as a `String` with `""` for
the absent case. -/
def build_scryfall_queries (card_name set_code collector_number : String) : List String :=
  let clean_name := strip (pyReplace (pyReplace (pyReplace card_name "\"" "") "\n" " ") "\r" " ")
  if collector_number ≠ "" then
    [s!"cn:{collector_number} set:{set_code}",
     "name:\"" ++ clean_name ++ s!"\" cn:{collector_number} set:{set_code}",
     "name:\"" ++ clean_name ++ s!"\" set:{set_code}"]
  else
    ["name:\"" ++ clean_name ++ s!"\" set:{set_code}",
     s!"name:{clean_name} set:{set_code}"]

/-- Embedding of the `color_order` dictionary lookup with default 99. -/
def color_order (c : String) : Nat :=
  if c = "W" then 0 else if c = "U" then 1 else if c = "B" then 2
  else if c = "R" then 3 else if c = "G" then 4 else 99

/-- Colour ordering as a decidable relation (for the stable sort inside
`format_colors_for_sorting`). -/
def color_le (a b : String) : Prop := color_order a ≤ color_order b

instance : DecidableRel color_le := fun a b => by unfold color_le; infer_instance

/-- Embedding of `format_colors_for_sorting`: WUBRG ordering via a stable
sort, then concatenation.  (`insertionSort` is a stable sort, hence produces
the same list as Python's stable `sorted`.) -/
def format_colors_for_sorting (colors : List String) : String :=
  if colors.isEmpty then ""
  else String.join (colors.insertionSort color_le)

/-- Sort keys produced by `create_sort_key_factory`: every field yields a
string key except `price`, which yields a number.  Within one sort all keys
come from a single field and hence have a single shape. -/
inductive SortKey where
  | str (s : String)
  | num (q : ℚ)
deriving Repr, DecidableEq

/-- Comparison on sort keys: within one shape it is the Python string /
numeric order; across shapes (which a single sort never mixes) strings are
taken below numbers to keep the relation total and transitive. -/
def sort_key_le : SortKey → SortKey → Bool
  | .str a, .str b => strLe a b
  | .num a, .num b => decide (a ≤ b)
  | .str _, .num _ => true
  | .num _, .str _ => false

/-- Embedding of `create_sort_key_factory`. -/
def create_sort_key (sort_field : String) (card : Card) : SortKey :=
  if sort_field = "location" then .str card.location
  else if sort_field = "set" then .str card.set_name
  else if sort_field = "name" then .str (lower card.name)
  else if sort_field = "condition" then .str card.condition
  else if sort_field = "rarity" then .str card.rarity
  else if sort_field = "price" then .num (parse_price card.price)
  else if sort_field = "card_type" then
    .str (if card.card_type ≠ "" then lower card.card_type else "")
  else if sort_field = "color" then
    .str (if card.colors ≠ "" then card.colors else "ZZZ")
  else .str ""

/-- Ascending key order on cards, as a decidable relation. -/
def key_asc (k : Card → SortKey) (a b : Card) : Prop := sort_key_le (k a) (k b) = true

/-- Descending key order on cards (`reverse=True`): `a` may stay before `b`
when its key is at least `b`'s key. -/
def key_desc (k : Card → SortKey) (a b : Card) : Prop := sort_key_le (k b) (k a) = true

instance (k : Card → SortKey) : DecidableRel (key_asc k) := fun _ _ =>
  inferInstanceAs (Decidable (_ = true))

instance (k : Card → SortKey) : DecidableRel (key_desc k) := fun _ _ =>
  inferInstanceAs (Decidable (_ = true))

/-- One `list.sort(key=..., reverse=...)` call: a stable sort by the key, in
the requested direction.  Python's Timsort and `insertionSort` are both
stable, so they compute the same list for the total preorders produced by a
key function. -/
def py_sort (k : Card → SortKey) (rev : Bool) (l : List Card) : List Card :=
  if rev then l.insertionSort (key_desc k) else l.insertionSort (key_asc k)

/-- Embedding of `Counter(card.location for card in cards)[loc]`: the number
of line items whose location is `loc`. -/
def location_counts (cards : List Card) (loc : String) : Nat :=
  cards.countP (fun c => c.location == loc)

/-- Embedding of `sort_cards`: a stable multi-pass sort — name ascending
first, then the optional tertiary and secondary keys, then the primary key;
with primary field `"location"` the primary key is the per-location item
count from `Counter`. -/
def sort_cards (cards : List Card) (sort_by order : String)
    (secondary_sort : Option String := none) (secondary_order : String := "asc")
    (tertiary_sort : Option String := none) (tertiary_order : String := "asc") :
    List Card :=
  let cards1 := py_sort (fun c => .str (lower c.name)) false cards
  let cards2 := match tertiary_sort with
    | some t => py_sort (create_sort_key t) (tertiary_order = "desc") cards1
    | none => cards1
  let cards3 := match secondary_sort with
    | some s => py_sort (create_sort_key s) (secondary_order = "desc") cards2
    | none => cards2
  if sort_by = "location" then
    py_sort (fun c => .num ((location_counts cards3 c.location : ℚ))) (order = "desc") cards3
  else
    py_sort (create_sort_key sort_by) (order = "desc") cards3

/-- Truthiness of an optional string under Python rules: `None` and `""` are
falsy. -/
def optStrTruthy : Option String → Bool
  | none => false
  | some s => s != ""

/-- Python `a or b` on optional strings. -/
def pyOrStr (a b : Option String) : Option String := if optStrTruthy a then a else b

/-- Image URI dictionary of a Scryfall card object (only the keys the program
reads); an absent or empty dictionary is modelled as `none` at the use site. -/
structure ScryImageUris where
  large : Option String := none
  normal : Option String := none
  small : Option String := none
deriving Repr, DecidableEq

/-- One entry of `card_faces` (only the key the program reads). -/
structure ScryFace where
  image_uris : Option ScryImageUris := none
deriving Repr, DecidableEq

/-- A Scryfall card object, restricted to the fields
`get_card_data_from_scryfall` reads. -/
structure ScryCard where
  image_uris : Option ScryImageUris := none
  card_faces : List ScryFace := []
  type_line : String := ""
  colors : List String := []
  id : String := ""
deriving Repr, DecidableEq

/-- The image-URL extraction of `get_card_data_from_scryfall`: card-level
`image_uris`, falling back to the first face for double-faced cards, then
`large or normal or small`. -/
def card_image_url (card : ScryCard) : Option String :=
  let image_uris :=
    match card.image_uris with
    | some u => some u
    | none =>
      match card.card_faces with
      | [] => none
      | f :: _ => f.image_uris
  match image_uris with
  | none => none
  | some u => pyOrStr u.large (pyOrStr u.normal u.small)

/-- Outcome of one Scryfall search request, as observed by the `try` blocks of
`get_card_data_from_scryfall`: a JSON body with its `data` list, an HTTP error
status raised by `raise_for_status`, or any other exception (timeout,
malformed JSON). -/
inductive QueryOutcome where
  | ok (cards : List ScryCard)
  | httpError (status : Nat)
  | exc
deriving Repr, DecidableEq

/-- Body of the per-query `try`: when the `data` list is non-empty and its
first card yields a truthy image URL, the result tuple is returned; otherwise
the loop falls through to the next query. -/
def try_query_data (cards : List ScryCard) : Option (String × String × String × String) :=
  match cards with
  | [] => none
  | card :: _ =>
    match card_image_url card with
    | some u =>
      if u != "" then some (u, card.type_line, format_colors_for_sorting card.colors, card.id)
      else none
    | none => none

/-- The query loop of `get_card_data_from_scryfall`: one network call per
attempted query; a 404 falls through to the next query, any other HTTP error
is re-raised (aborting the chain with the not-found result), any other
exception falls through.  Returns the number of network calls made together
with the result of the first successful query. -/
def run_queries (net : String → QueryOutcome) :
    List String → Nat × Option (String × String × String × String)
  | [] => (0, none)
  | q :: rest =>
    match net q with
    | .ok cards =>
      match try_query_data cards with
      | some r => (1, some r)
      | none =>
        let p := run_queries net rest
        (p.1 + 1, p.2)
    | .httpError status =>
      if status = 404 then
        let p := run_queries net rest
        (p.1 + 1, p.2)
      else (1, none)
    | .exc =>
      let p := run_queries net rest
      (p.1 + 1, p.2)

/-- Embedding of `get_card_data_from_scryfall`: run the fallback query chain
and return `(network calls, (image url, type line, colour string, scryfall
id))`, with the not-found tuple `(None, "", "", "")` when every query
fails. -/
def get_card_data_from_scryfall (net : String → QueryOutcome)
    (card_name set_code collector_number : String) :
    Nat × (Option String × String × String × String) :=
  let p := run_queries net (build_scryfall_queries card_name set_code collector_number)
  (p.1,
    match p.2 with
    | some (u, t, c, i) => (some u, t, c, i)
    | none => (none, "", "", ""))

/-- The image cache directory constant. -/
def CACHE_DIR : String := "card_images"

/-- The deterministic cache filename built by `download_and_cache_image`:
sanitized card name, set code with slashes replaced, and the extension
inferred from the image URL.  The collector number does not occur in it. -/
def cache_filename (image_url card_name set_code : String) : String :=
  sanitize_for_filename card_name ++ "_" ++ pyReplace set_code "/" "_"
    ++ infer_file_extension image_url

/-- Embedding of `download_and_cache_image`.  `disk` is the set of paths that
exist on disk, `download_ok` the outcome of the image GET when one is made.
Returns the resulting local path (or `none` on failure) and the number of
network calls issued. -/
def download_and_cache_image (disk : List String) (download_ok : Bool)
    (image_url card_name set_code : String) : Option String × Nat :=
  if image_url = "" then (none, 0)
  else
    let local_path := CACHE_DIR ++ "/" ++ cache_filename image_url card_name set_code
    if disk.contains local_path then (some local_path, 0)
    else if download_ok then (some local_path, 1) else (none, 1)

/-- One row of the ShipStation CSV, restricted to the columns
`process_shipstation_data` reads. -/
structure CsvRow where
  card_name : String := ""
  set_code : String := ""
  collector_number : String := ""
  set_name : String := ""
  quantity : String := "1"
  condition : String := ""
  rarity : String := ""
  finish : String := ""
  unit_price : String := ""
deriving Repr, DecidableEq

/-- The location lookup of `process_shipstation_data` (line 531):
`drawer_mapping.get(set_code, "Unknown")` — note that the raw set code is
used, with no case normalization. -/
def drawer_lookup (drawer_mapping : List (String × String)) (set_code : String) : String :=
  (drawer_mapping.lookup set_code).getD "Unknown"

/-- Per-row body of `process_shipstation_data`: skip rows without a card
name; resolve the location from the drawer mapping; always query Scryfall for
card data; cache-aware image download; assemble the `Card`.  Returns the card
together with the total number of network calls the row caused. -/
def process_row (net : String → QueryOutcome) (disk : List String) (download_ok : Bool)
    (drawer_mapping : List (String × String)) (row : CsvRow) : Option (Card × Nat) :=
  if row.card_name = "" then none
  else
    let location := drawer_lookup drawer_mapping row.set_code
    let scry := get_card_data_from_scryfall net row.card_name row.set_code row.collector_number
    let image_url := scry.2.1
    let dl :=
      if optStrTruthy image_url then
        download_and_cache_image disk download_ok (image_url.getD "") row.card_name row.set_code
      else (none, 0)
    let card : Card :=
      { name := row.card_name
        set_name := row.set_name
        set_code := row.set_code
        collector_number := row.collector_number
        quantity := row.quantity
        condition := row.condition
        rarity := row.rarity
        finish := row.finish
        location := location
        image_url := (pyOrStr dl.1 (pyOrStr image_url (some ""))).getD ""
        price := row.unit_price
        card_type := scry.2.2.1
        colors := scry.2.2.2.1 }
    some (card, scry.1 + dl.2)

/-- The aggregate described by the specification, for comparison with the
code's `location_counts`: total quantity per location, summed over the full
list with the pipeline's `parse_quantity`. -/
def claimed_qty_aggregate (cards : List Card) (loc : String) : Int :=
  ((cards.filter (fun c => c.location == loc)).map (fun c => parse_quantity c.quantity)).sum

/-- Example card A of the specification's pick-path example: location "Bin1",
quantity 5. -/
def exCardA : Card where
  name := "A"
  set_name := ""
  set_code := "S1"
  collector_number := "1"
  quantity := "5"
  condition := ""
  rarity := ""
  finish := ""
  location := "Bin1"
  image_url := ""
  price := ""

/-- Example card B: location "Bin1", quantity 1. -/
def exCardB : Card := { exCardA with name := "B", quantity := "1" }

/-- Example card C: location "Bin2", quantity 10. -/
def exCardC : Card := { exCardA with name := "C", quantity := "10", location := "Bin2" }

/-- The Scryfall card object used by the concrete scenarios below. -/
def exScryCard : ScryCard where
  image_uris := some { large := some "http://c/a.jpg" }
  type_line := "Instant"
  colors := ["R"]
  id := "x1"

/-- A network oracle on which every search query succeeds with `exScryCard`. -/
def exNet : String → QueryOutcome := fun _ => .ok [exScryCard]

/-- The CSV row of the concrete scenarios: card "Bolt", set "sta", collector
number 1. -/
def exRow1 : CsvRow where
  card_name := "Bolt"
  set_code := "sta"
  collector_number := "1"

/-- The same row with a different collector number. -/
def exRow2 : CsvRow := { exRow1 with collector_number := "2" }

end Sheet

namespace Updater

/-- One order row of the seller orders API, restricted to the fields
`quick_fulfillment_updater.py` reads. -/
structure ApiOrder where
  id : String := ""
  label : String := ""
  total_cents : Nat := 0
  latest_fulfillment_status : Option String := none
deriving Repr, DecidableEq

/-- The status filter: `status in (None, '', 'processing', 'unfulfilled')`. -/
def status_matches : Option String → Bool
  | none => true
  | some v => v == "" || v == "processing" || v == "unfulfilled"

/-- Python `status or default` for an optional status string. -/
def pyOrDefault (s : Option String) (d : String) : String :=
  match s with
  | none => d
  | some v => if v == "" then d else v

/-- Rendering of `f"${total_cents/100:.2f}"`.  Exact decimal rendering of
`total_cents / 100`; for the cent amounts the API serves, the float division
and `.2f` formatting of the Python source produce the same digits. -/
def format_total (total_cents : Nat) : String :=
  let frac := total_cents % 100
  "$" ++ toString (total_cents / 100) ++ "." ++ (if frac < 10 then "0" else "") ++ toString frac

/-- The summary dictionary appended for each order that passes the status
filter. -/
structure OrderSummary where
  id : String
  label : String
  total : String
  status : String
deriving Repr, DecidableEq

/-- The filter-and-collect step of the pagination loop body. -/
def mk_summary (o : ApiOrder) : Option OrderSummary :=
  if status_matches o.latest_fulfillment_status then
    some
      { id := o.id
        label := o.label
        total := format_total o.total_cents
        status := pyOrDefault o.latest_fulfillment_status "unfulfilled" }
  else none

/-- Outcome of one page request (`GET ...orders?limit=100&offset=...`): the
parsed `orders` list, or any exception (transport error, non-2xx status via
`raise_for_status`, malformed JSON). -/
inductive PageResp where
  | ok (orders : List ApiOrder)
  | exc
deriving Repr, DecidableEq

/-- Result of running `get_unfulfilled_orders`: normal completion with the
number of page requests issued and the collected summaries, termination of
the whole run via `sys.exit(1)`, or exhaustion of the modelling fuel (never
reached in the theorems below). -/
inductive RunResult where
  | done (requests : Nat) (orders : List OrderSummary)
  | exit
  | fuelOut
deriving Repr, DecidableEq

/-- The pagination loop of `get_unfulfilled_orders`: request the page at
`offset`; any exception exits the run; an empty page stops; a page shorter
than 100 rows stops after collecting it; otherwise continue at
`offset + 100`. -/
def fetch_loop (net : Nat → PageResp) : Nat → Nat → RunResult
  | 0, _ => .fuelOut
  | fuel + 1, offset =>
    match net offset with
    | .exc => .exit
    | .ok batch =>
      if batch.isEmpty then .done 1 []
      else
        let kept := batch.filterMap mk_summary
        if batch.length < 100 then .done 1 kept
        else
          match fetch_loop net fuel (offset + 100) with
          | .done n rest => .done (n + 1) (kept ++ rest)
          | r => r

/-- Embedding of `get_unfulfilled_orders`: missing credentials exit the run
before any network call; otherwise the pagination loop runs from offset 0. -/
def get_unfulfilled_orders (email token : String) (net : Nat → PageResp) (fuel : Nat) :
    RunResult :=
  if email = "" ∨ token = "" then .exit
  else fetch_loop net fuel 0

/-- An honest paginated backend over a fixed list of rows: the page at
`offset` holds the next (up to) 100 rows. -/
def pages_of (backend : List ApiOrder) (offset : Nat) : PageResp :=
  .ok ((backend.drop offset).take 100)

/-- Outcome of the fulfillment `PUT` for one order. -/
inductive PutResp where
  | resp (status : Nat)
  | exc
deriving Repr, DecidableEq

/-- Embedding of `update_order_status`: `True` exactly on a 200 response; any
exception yields `False` instead of propagating. -/
def update_order_status (r : PutResp) : Bool :=
  match r with
  | .resp status => status == 200
  | .exc => false

/-- The update loop of `main`: for each selected (1-based) index, update the
order and count successes and failures.  An out-of-range index would be an
uncaught `IndexError` (modelled as `none`); `main` only ever passes indices
in `1..len(orders)`. -/
def run_updates (net : String → PutResp) (orders : List OrderSummary) :
    List Nat → Nat × Nat → Option (Nat × Nat)
  | [], acc => some acc
  | idx :: rest, acc =>
    match orders.get? (idx - 1) with
    | none => none
    | some o =>
      if update_order_status (net o.id) then run_updates net orders rest (acc.1 + 1, acc.2)
      else run_updates net orders rest (acc.1, acc.2 + 1)

end Updater

namespace Gui

open PyModel

/-- One card dictionary of `picklist_gui.py` (the data fields of
`load_picklist`; the Tk widget handles attached during rendering are not part
of the data model). -/
structure GCard where
  order : String := ""
  name : String := ""
  set : String := ""
  set_code : String := ""
  collector_number : String := ""
  quantity : Int := 1
  condition : String := ""
  language : String := ""
  finish : String := ""
  rarity : String := ""
  location : String := ""
  grabbed : Bool := false
  price : Option ℚ := none
deriving Repr, DecidableEq

/-- Embedding of `PicklistGUI.get_location_for_set`: empty set codes map to
"Unknown"; otherwise the locations mapping is consulted with the
upper-cased set code, defaulting to "Unassigned". -/
def get_location_for_set (locations : List (String × String)) (set_code : String) : String :=
  if set_code = "" then "Unknown"
  else (locations.lookup (upper set_code)).getD "Unassigned"

/-- The composite progress key `card['order'] + card['name']`. -/
def card_key (c : GCard) : String := c.order ++ c.name

/-- Python `set.add` on the grabbed-cards set, modelled on lists by
membership semantics. -/
def set_add (s : List String) (k : String) : List String :=
  if k ∈ s then s else k :: s

/-- Python `set.discard` on the grabbed-cards set. -/
def set_discard (s : List String) (k : String) : List String :=
  s.filter (fun x => x != k)

/-- Embedding of `PicklistGUI.toggle_grabbed` on the data state (cards list
and grabbed-cards set); the card is addressed by its index in the list. -/
def toggle_grabbed (cards : List GCard) (i : Nat) (g : Bool) (grabbed : List String) :
    List GCard × List String :=
  match cards.get? i with
  | none => (cards, grabbed)
  | some c =>
    (cards.set i { c with grabbed := g },
     if g then set_add grabbed (card_key c) else set_discard grabbed (card_key c))

/-- The `card_states` map written by `PicklistGUI.save_progress`. -/
def save_card_states (cards : List GCard) : List (String × Bool) :=
  cards.map (fun c => (card_key c, c.grabbed))

/-- Embedding of the restore loop of `PicklistGUI.load_progress`: for each
card in order, if its composite key occurs in the snapshot's `card_states`
map, take the grabbed flag from there and update the grabbed-cards set;
otherwise leave the card untouched.  Snapshot keys matching no card are never
consulted. -/
def load_progress_loop (states : List (String × Bool)) :
    List GCard → List String → List GCard × List String
  | [], grabbed => ([], grabbed)
  | c :: rest, grabbed =>
    match states.lookup (card_key c) with
    | some b =>
      let grabbed' := if b then set_add grabbed (card_key c) else set_discard grabbed (card_key c)
      let p := load_progress_loop states rest grabbed'
      ({ c with grabbed := b } :: p.1, p.2)
    | none =>
      let p := load_progress_loop states rest grabbed
      (c :: p.1, p.2)

/-- The price cache key `f"{set_code}_{collector_number}_{name}"`. -/
def price_cache_key (c : GCard) : String :=
  c.set_code ++ "_" ++ c.collector_number ++ "_" ++ c.name

/-- Outcome of one Scryfall price request as observed in `fetch_card_price`:
a response with status code and the `prices` object of its JSON body (values
may be JSON `null`), or an exception. -/
inductive PriceResp where
  | resp (status : Nat) (prices : List (String × Option String))
  | exc
deriving Repr, DecidableEq

/-- The two endpoints `fetch_card_price` may consult. -/
structure PriceNet where
  exact : PriceResp
  fuzzy : PriceResp
deriving Repr, DecidableEq

/-- The field loop of `PicklistGUI.extract_price_from_data` over an explicit
candidate list: the first present, truthy price field is parsed with
`float(...)`; a parse failure propagates to the surrounding handler, which
returns `None`. -/
def extract_loop (prices : List (String × Option String)) : List String → Option ℚ
  | [] => none
  | t :: rest =>
    match prices.lookup t with
    | some (some v) => if v != "" then pyFloat v else extract_loop prices rest
    | _ => extract_loop prices rest

/-- Embedding of `PicklistGUI.extract_price_from_data` with its fixed ordered
candidate list. -/
def extract_price_from_data (prices : List (String × Option String)) : Option ℚ :=
  extract_loop prices ["usd", "usd_foil", "eur", "eur_foil"]

/-- Python truthiness of the running `price` value: `None` and `0.0` are
falsy. -/
def qTruthy : Option ℚ → Bool
  | none => false
  | some q => q != 0

/-- Embedding of `PicklistGUI.fetch_card_price`: memoized per cache key
(including not-found results); otherwise the exact set/collector endpoint is
tried, then the fuzzy-name endpoint when the price is still falsy; the result
is stored in the cache.  Returns `(price, new cache, network calls)`. -/
def fetch_card_price (net : PriceNet) (cache : List (String × Option ℚ)) (card : GCard) :
    Option ℚ × List (String × Option ℚ) × Nat :=
  match cache.lookup (price_cache_key card) with
  | some v => (v, cache, 0)
  | none =>
    let set_code := lower card.set_code
    let cn := card.collector_number
    let step1 :=
      if set_code ≠ "" ∧ cn ≠ "" ∧ set_code ≠ "n/a" ∧ cn ≠ "n/a" then
        match net.exact with
        | .resp status prices =>
          ((if status = 200 then extract_price_from_data prices else none), 1)
        | .exc => (none, 1)
      else (none, 0)
    let step2 :=
      if ¬ qTruthy step1.1 then
        if card.name ≠ "" ∧ card.name ≠ "N/A" then
          match net.fuzzy with
          | .resp status prices =>
            ((if status = 200 then extract_price_from_data prices else step1.1), 1)
          | .exc => (step1.1, 1)
        else (step1.1, 0)
      else (step1.1, 0)
    (step2.1, (price_cache_key card, step2.1) :: cache, step1.2 + step2.2)

/-- The specification's description of the price extraction, for comparison
with the code's `extract_price_from_data`: the first populated (present and
non-empty) field of the ordered candidate list. -/
def first_populated (prices : List (String × Option String)) : List String → Option String
  | [] => none
  | t :: rest =>
    match prices.lookup t with
    | some (some v) => if v != "" then some v else first_populated prices rest
    | _ => first_populated prices rest

/-- The candidate order the specification states: usd, usd_foil, eur,
eur_foil. -/
def first_populated_price (prices : List (String × Option String)) : Option String :=
  first_populated prices ["usd", "usd_foil", "eur", "eur_foil"]

/-- Example GUI card with identity key "s_1_N". -/
def exGCard : GCard where
  set_code := "s"
  collector_number := "1"
  name := "N"

/-- Example GUI card for the progress scenarios: key "o1A". -/
def exG1 : GCard where
  order := "o1"
  name := "A"

/-- Example GUI card for the progress scenarios: key "o1B". -/
def exG2 : GCard where
  order := "o1"
  name := "B"

/-- The implicit invariant of the GUI progress state: each card's composite
key is a member of the grabbed-cards set exactly when its grabbed flag is
true. -/
def grabbed_inv (cards : List GCard) (grabbed : List String) : Prop :=
  ∀ (i : Nat) (h : i < cards.length),
    (card_key (cards.get ⟨i, h⟩) ∈ grabbed ↔ (cards.get ⟨i, h⟩).grabbed = true)

end Gui

namespace PyModel

theorem charListLe_refl : ∀ as : List Char, charListLe as as = true
  | [] => rfl
  | a :: as => by
    simp only [charListLe]
    rw [if_neg (Nat.lt_irrefl _), if_neg (Nat.lt_irrefl _)]
    exact charListLe_refl as

theorem charListLe_total : ∀ as bs : List Char, charListLe as bs = true ∨ charListLe bs as = true
  | [], _ => Or.inl rfl
  | _ :: _, [] => Or.inr rfl
  | a :: as, b :: bs => by
    simp only [charListLe]
    rcases Nat.lt_trichotomy a.toNat b.toNat with h | h | h
    · left; rw [if_pos h]
    · rw [if_neg (by omega), if_neg (by omega), if_neg (by omega), if_neg (by omega)]
      exact charListLe_total as bs
    · right; rw [if_pos h]

theorem charListLe_trans : ∀ as bs cs : List Char,
    charListLe as bs = true → charListLe bs cs = true → charListLe as cs = true
  | [], _, _, _, _ => rfl
  | _ :: _, [], _, h1, _ => by simp [charListLe] at h1
  | _ :: _, _ :: _, [], _, h2 => by simp [charListLe] at h2
  | a :: as, b :: bs, c :: cs, h1, h2 => by
    simp only [charListLe] at h1 h2 ⊢
    rcases Nat.lt_trichotomy a.toNat b.toNat with hab | hab | hab
    · rcases Nat.lt_trichotomy b.toNat c.toNat with hbc | hbc | hbc
      · rw [if_pos (by omega)]
      · rw [if_pos (by omega)]
      · rw [if_neg (by omega), if_pos hbc] at h2; cases h2
    · rw [if_neg (by omega), if_neg (by omega)] at h1
      rcases Nat.lt_trichotomy b.toNat c.toNat with hbc | hbc | hbc
      · rw [if_pos (by omega)]
      · rw [if_neg (by omega), if_neg (by omega)] at h2
        rw [if_neg (by omega), if_neg (by omega)]
        exact charListLe_trans as bs cs h1 h2
      · rw [if_neg (by omega), if_pos hbc] at h2; cases h2
    · rw [if_neg (by omega), if_pos hab] at h1; cases h1

end PyModel

namespace Sheet

open PyModel

theorem sort_key_le_refl : ∀ a : SortKey, sort_key_le a a = true
  | .str s => charListLe_refl s.toList
  | .num _ => by simp [sort_key_le]

theorem sort_key_le_total : ∀ a b : SortKey, sort_key_le a b = true ∨ sort_key_le b a = true
  | .str a, .str b => charListLe_total a.toList b.toList
  | .num a, .num b => by
    rcases le_total a b with h | h
    · left; simpa [sort_key_le]
    · right; simpa [sort_key_le]
  | .str _, .num _ => Or.inl rfl
  | .num _, .str _ => Or.inr rfl

theorem sort_key_le_trans : ∀ a b c : SortKey,
    sort_key_le a b = true → sort_key_le b c = true → sort_key_le a c = true
  | .str _, .str _, .str _, h1, h2 => charListLe_trans _ _ _ h1 h2
  | .str _, .str _, .num _, _, _ => rfl
  | .str _, .num _, .str _, _, h2 => Bool.noConfusion h2
  | .str _, .num _, .num _, _, _ => rfl
  | .num _, .str _, _, h1, _ => Bool.noConfusion h1
  | .num _, .num _, .str _, _, h2 => Bool.noConfusion h2
  | .num a, .num b, .num c, h1, h2 => by
    simp only [sort_key_le, decide_eq_true_eq] at h1 h2 ⊢
    exact le_trans h1 h2

instance (k : Card → SortKey) : IsTotal Card (key_asc k) :=
  ⟨fun a b => sort_key_le_total (k a) (k b)⟩

instance (k : Card → SortKey) : IsTrans Card (key_asc k) :=
  ⟨fun _ _ _ h1 h2 => sort_key_le_trans _ _ _ h1 h2⟩

instance (k : Card → SortKey) : IsTotal Card (key_desc k) :=
  ⟨fun a b => sort_key_le_total (k b) (k a)⟩

instance (k : Card → SortKey) : IsTrans Card (key_desc k) :=
  ⟨fun _ _ _ h1 h2 => sort_key_le_trans _ _ _ h2 h1⟩

theorem py_sort_perm (k : Card → SortKey) (rev : Bool) (l : List Card) :
    List.Perm (py_sort k rev l) l := by
  unfold py_sort
  split
  · exact List.perm_insertionSort _ _
  · exact List.perm_insertionSort _ _

theorem py_sort_sorted_desc (k : Card → SortKey) (l : List Card) :
    (py_sort k true l).Sorted (key_desc k) :=
  List.sorted_insertionSort (key_desc k) l

/-- In a descending stable sort by a key, the key is antitone along the
output list. -/
theorem py_sort_desc_key_antitone (k : Card → SortKey) (l : List Card) (i j : Nat)
    (hi : i < (py_sort k true l).length) (hj : j < (py_sort k true l).length) (hij : i ≤ j) :
    sort_key_le (k ((py_sort k true l).get ⟨j, hj⟩)) (k ((py_sort k true l).get ⟨i, hi⟩)) = true := by
  rcases Nat.lt_or_ge i j with hlt | hge
  · exact (py_sort_sorted_desc k l).rel_get_of_lt (a := ⟨i, hi⟩) (b := ⟨j, hj⟩) hlt
  · have hji : i = j := le_antisymm hij hge
    subst hji
    exact sort_key_le_refl _

/-- Unfolding of `sort_cards` at the pick-path parameters (primary field
`location`, descending, no secondary or tertiary key). -/
theorem sort_cards_location_desc_eq (cards : List Card) :
    sort_cards cards "location" "desc"
      = py_sort
          (fun c =>
            .num ((location_counts (py_sort (fun c => .str (lower c.name)) false cards)
              c.location : ℚ)))
          true (py_sort (fun c => .str (lower c.name)) false cards) := rfl

theorem location_counts_of_perm {l1 l2 : List Card} (h : List.Perm l1 l2) (loc : String) :
    location_counts l1 loc = location_counts l2 loc :=
  h.countP_eq _

/-- Claim C1 (counterexample): on the specification's own example the
quantity aggregates are Bin1 = 6 and Bin2 = 10, yet the pick-path sort
(primary field "location", descending, the pipeline's parameters) leaves C
last — A and B sort before C, because the code aggregates the *number of
line items* per location (`Counter`), not the sum of the quantity fields. -/
theorem claim_C1_counterexample :
    claimed_qty_aggregate [exCardA, exCardB, exCardC] "Bin2" = 10
    ∧ claimed_qty_aggregate [exCardA, exCardB, exCardC] "Bin1" = 6
    ∧ sort_cards [exCardA, exCardB, exCardC] "location" "desc" = [exCardA, exCardB, exCardC] :=
  ⟨by decide, by decide, by decide⟩

/-- Claim C1 (amended): for every assembled card list, the pick-path sort
(primary field "location", descending) orders the output so that the number
of line items at an item's location — aggregated over the full list — never
increases along the list: every item from a location with a strictly greater
line-item count precedes every item from a lower-count location, regardless
of name or set. -/
theorem claim_C1_location_count_ordering (cards : List Card) :
    (sort_cards cards "location" "desc").Sorted
      (fun a b => location_counts cards b.location ≤ location_counts cards a.location) := by
  rw [sort_cards_location_desc_eq cards]
  have hs := py_sort_sorted_desc
    (fun c =>
      SortKey.num ((location_counts (py_sort (fun c => SortKey.str (lower c.name)) false cards)
        c.location : ℚ)))
    (py_sort (fun c => SortKey.str (lower c.name)) false cards)
  refine hs.imp ?_
  intro a b hab
  simp only [key_desc, sort_key_le, decide_eq_true_eq, Nat.cast_le] at hab
  rwa [location_counts_of_perm (py_sort_perm _ _ _), location_counts_of_perm (py_sort_perm _ _ _)]
    at hab

/-- Claim C9: the pick-path sort is deterministic — two invocations on the
same list contents with the same sort parameters produce identical output
orderings. -/
theorem claim_C9_deterministic (cards1 cards2 : List Card) (sort_by order : String)
    (secondary_sort : Option String) (secondary_order : String)
    (tertiary_sort : Option String) (tertiary_order : String)
    (h : cards1 = cards2) :
    sort_cards cards1 sort_by order secondary_sort secondary_order tertiary_sort tertiary_order
      = sort_cards cards2 sort_by order secondary_sort secondary_order tertiary_sort
          tertiary_order := by
  rw [h]

/-- Claim C9 witness: the determinism theorem applied at the concrete example
list and the pipeline's sort parameters. -/
theorem claim_C9_witness :
    sort_cards [exCardA, exCardB, exCardC] "location" "desc"
      = sort_cards [exCardA, exCardB, exCardC] "location" "desc" :=
  claim_C9_deterministic [exCardA, exCardB, exCardC] [exCardA, exCardB, exCardC]
    "location" "desc" none "asc" none "asc" rfl

end Sheet

namespace Updater

theorem length_filterMap_mk_summary (l : List ApiOrder)
    (h : ∀ o ∈ l, status_matches o.latest_fulfillment_status = true) :
    (l.filterMap mk_summary).length = l.length := by
  induction l with
  | nil => rfl
  | cons o rest ih =>
    have ho := h o (List.mem_cons_self ..)
    obtain ⟨s, hs⟩ : ∃ s, mk_summary o = some s := by
      unfold mk_summary
      rw [if_pos ho]
      exact ⟨_, rfl⟩
    rw [List.filterMap_cons, hs, List.length_cons, List.length_cons,
      ih (fun x hx => h x (List.mem_cons_of_mem _ hx))]

/-- Unfolding of one loop iteration whose page request succeeds. -/
theorem fetch_loop_ok (net : Nat → PageResp) (fuel offset : Nat) (batch : List ApiOrder)
    (h : net offset = .ok batch) :
    fetch_loop net (fuel + 1) offset
      = if batch.isEmpty then .done 1 []
        else if batch.length < 100 then .done 1 (batch.filterMap mk_summary)
        else
          match fetch_loop net fuel (offset + 100) with
          | .done n rest => .done (n + 1) (batch.filterMap mk_summary ++ rest)
          | r => r := by
  rw [fetch_loop, h]

/-- Unfolding of one loop iteration whose page request raises. -/
theorem fetch_loop_exc (net : Nat → PageResp) (fuel offset : Nat)
    (h : net offset = .exc) :
    fetch_loop net (fuel + 1) offset = .exit := by
  rw [fetch_loop, h]

/-- Unfolding of one update-loop iteration at a valid index. -/
theorem run_updates_cons (net : String → PutResp) (orders : List OrderSummary)
    (idx : Nat) (rest : List Nat) (acc : Nat × Nat) (o : OrderSummary)
    (h : orders.get? (idx - 1) = some o) :
    run_updates net orders (idx :: rest) acc
      = if update_order_status (net o.id) then run_updates net orders rest (acc.1 + 1, acc.2)
        else run_updates net orders rest (acc.1, acc.2 + 1) := by
  rw [run_updates, h]

/-- Claim C3: with 101 matching rows behind an honest paginated source with
page size 100, the order retriever issues exactly 2 page requests and
returns all 101 rows; the loop stops at the second page because it is
shorter than a full page. -/
theorem claim_C3_pagination (rows : List ApiOrder) (email token : String) (fuel : Nat)
    (hemail : email ≠ "") (htoken : token ≠ "")
    (hlen : rows.length = 101)
    (hmatch : ∀ o ∈ rows, status_matches o.latest_fulfillment_status = true)
    (hfuel : 2 ≤ fuel) :
    get_unfulfilled_orders email token (pages_of rows) fuel
      = .done 2 (rows.filterMap mk_summary)
    ∧ (rows.filterMap mk_summary).length = 101 := by
  obtain ⟨f, rfl⟩ : ∃ f, fuel = f + 2 := ⟨fuel - 2, by omega⟩
  have hlen0 : (rows.take 100).length = 100 := by
    rw [List.length_take, hlen]
    omega
  have hlen1 : (rows.drop 100).length = 1 := by
    rw [List.length_drop, hlen]
  have hb0 : pages_of rows 0 = .ok (rows.take 100) := by
    unfold pages_of
    rw [List.drop_zero]
  have hb1 : pages_of rows 100 = .ok (rows.drop 100) := by
    unfold pages_of
    rw [List.take_of_length_le (by rw [hlen1]; omega)]
  have hloop1 : fetch_loop (pages_of rows) (f + 1) 100
      = .done 1 ((rows.drop 100).filterMap mk_summary) := by
    rw [fetch_loop_ok _ _ _ _ hb1]
    rw [if_neg (by simp only [List.isEmpty_iff]; intro hnil; rw [hnil] at hlen1; cases hlen1)]
    rw [if_pos (by rw [hlen1]; omega)]
  have hloop0 : fetch_loop (pages_of rows) (f + 2) 0
      = .done 2 (rows.filterMap mk_summary) := by
    rw [show f + 2 = (f + 1) + 1 from rfl, fetch_loop_ok _ _ _ _ hb0]
    rw [if_neg (by simp only [List.isEmpty_iff]; intro hnil; rw [hnil] at hlen0; cases hlen0)]
    rw [if_neg (by rw [hlen0]; omega)]
    rw [show (0 : Nat) + 100 = 100 from rfl, hloop1]
    show RunResult.done (1 + 1)
        ((rows.take 100).filterMap mk_summary ++ (rows.drop 100).filterMap mk_summary)
      = RunResult.done 2 (rows.filterMap mk_summary)
    rw [← List.filterMap_append, List.take_append_drop]
  refine ⟨?_, ?_⟩
  · unfold get_unfulfilled_orders
    rw [if_neg (by rintro (h | h); exacts [hemail h, htoken h]), hloop0]
  · rw [length_filterMap_mk_summary rows hmatch, hlen]

/-- Claim C3 witness: the pagination theorem applied to a concrete backend of
101 default order rows, with fuel 2. -/
theorem claim_C3_witness :
    get_unfulfilled_orders "e" "t" (pages_of (List.replicate 101 {})) 2
      = .done 2 ((List.replicate 101 ({} : ApiOrder)).filterMap mk_summary)
    ∧ ((List.replicate 101 ({} : ApiOrder)).filterMap mk_summary).length = 101 :=
  claim_C3_pagination (List.replicate 101 {}) "e" "t" 2 (by decide) (by decide)
    (by simp) (by decide) (by omega)

/-- Claim C5 (counterexample): an error on the SECOND order page also
terminates the whole run via `sys.exit(1)`, although the first page
succeeded with a full page of rows — contradicting the claim that only
missing credentials and total failure of the first page are fatal. -/
theorem claim_C5_counterexample :
    get_unfulfilled_orders "e" "t"
      (fun offset => if offset = 0 then PageResp.ok (List.replicate 100 {}) else PageResp.exc) 2
      = .exit
    ∧ (fun offset =>
        if offset = 0 then PageResp.ok (List.replicate 100 ({} : ApiOrder)) else PageResp.exc) 0
      ≠ PageResp.exc :=
  ⟨by decide, by decide⟩

/-- Claim C5 (amended): a transport error or malformed payload during a
per-order update is non-fatal — the loop continues with the next order and
every selected order is accounted for as a success or a failure — while the
run terminates when credentials are missing or when ANY order-page request
fails (not only the first). -/
theorem claim_C5_error_handling :
    (∀ (email token : String) (net : Nat → PageResp) (fuel : Nat),
        email = "" ∨ token = "" → get_unfulfilled_orders email token net fuel = .exit)
    ∧ (∀ (email token : String) (net : Nat → PageResp) (fuel : Nat) (batch : List ApiOrder),
        email ≠ "" → token ≠ "" → 2 ≤ fuel →
        net 0 = .ok batch → batch.length = 100 → net 100 = .exc →
        get_unfulfilled_orders email token net fuel = .exit)
    ∧ (∀ (net : String → PutResp) (orders : List OrderSummary) (selected : List Nat)
        (acc : Nat × Nat),
        (∀ idx ∈ selected, 1 ≤ idx ∧ idx ≤ orders.length) →
        ∃ s fl, run_updates net orders selected acc = some (s, fl)
          ∧ s + fl = acc.1 + acc.2 + selected.length) := by
  refine ⟨?_, ?_, ?_⟩
  · intro email token net fuel h
    unfold get_unfulfilled_orders
    rw [if_pos h]
  · intro email token net fuel batch hemail htoken hfuel h0 hb h100
    obtain ⟨f, rfl⟩ : ∃ f, fuel = f + 2 := ⟨fuel - 2, by omega⟩
    unfold get_unfulfilled_orders
    rw [if_neg (by rintro (h | h); exacts [hemail h, htoken h])]
    rw [show f + 2 = (f + 1) + 1 from rfl, fetch_loop_ok _ _ _ _ h0]
    rw [if_neg (by simp only [List.isEmpty_iff]; intro hnil; rw [hnil] at hb; cases hb)]
    rw [if_neg (by rw [hb]; omega)]
    rw [show (0 : Nat) + 100 = 100 from rfl, fetch_loop_exc _ _ _ h100]
  · intro net orders selected
    induction selected with
    | nil =>
      intro acc _
      exact ⟨acc.1, acc.2, rfl, by simp⟩
    | cons idx rest ih =>
      intro acc hsel
      have hidx := hsel idx (List.mem_cons_self ..)
      have hlt : idx - 1 < orders.length := by omega
      rw [run_updates_cons _ _ _ _ _ _ (List.get?_eq_get hlt)]
      have hrest : ∀ k ∈ rest, 1 ≤ k ∧ k ≤ orders.length :=
        fun k hk => hsel k (List.mem_cons_of_mem _ hk)
      by_cases hupd : update_order_status (net (orders.get ⟨idx - 1, hlt⟩).id) = true
      · rw [if_pos hupd]
        obtain ⟨s, fl, heq, hsum⟩ := ih (acc.1 + 1, acc.2) hrest
        exact ⟨s, fl, heq, by simp only [List.length_cons]; omega⟩
      · rw [if_neg hupd]
        obtain ⟨s, fl, heq, hsum⟩ := ih (acc.1, acc.2 + 1) hrest
        exact ⟨s, fl, heq, by simp only [List.length_cons]; omega⟩

/-- Claim C5 witness: the amended theorem applied at concrete inputs — a run
with empty credentials exits, and an update loop over one order whose `PUT`
raises still completes with one recorded failure. -/
theorem claim_C5_witness :
    get_unfulfilled_orders "" "t" (fun _ => PageResp.exc) 1 = .exit
    ∧ ∃ s fl, run_updates (fun _ => PutResp.exc)
        [{ id := "o1", label := "L", total := "$0.00", status := "unfulfilled" }] [1] (0, 0)
        = some (s, fl) ∧ s + fl = 0 + 0 + [1].length :=
  ⟨claim_C5_error_handling.1 "" "t" (fun _ => PageResp.exc) 1 (Or.inl rfl),
   claim_C5_error_handling.2.2 (fun _ => PutResp.exc)
     [{ id := "o1", label := "L", total := "$0.00", status := "unfulfilled" }] [1] (0, 0)
     (by decide)⟩

end Updater

namespace Sheet

theorem run_queries_pos (net : String → QueryOutcome) (q : String) (rest : List String) :
    1 ≤ (run_queries net (q :: rest)).1 := by
  rw [run_queries]
  split
  · split
    · omega
    · dsimp only
      omega
  · split
    · dsimp only
      omega
    · omega
  · dsimp only
    omega

theorem get_card_data_calls_pos (net : String → QueryOutcome)
    (card_name set_code collector_number : String) :
    1 ≤ (get_card_data_from_scryfall net card_name set_code collector_number).1 := by
  show 1 ≤ (run_queries net (build_scryfall_queries card_name set_code collector_number)).1
  unfold build_scryfall_queries
  split
  · exact run_queries_pos net _ _
  · exact run_queries_pos net _ _

/-- Claim C2 (counterexample): with the image file already cached on disk,
resolving the identity through the pipeline still issues one network call —
the Scryfall metadata query always runs before the image-cache check — so
"zero network calls" fails even though the cached path is returned. -/
theorem claim_C2_counterexample :
    ((["card_images/Bolt_sta.jpg"] : List String).contains "card_images/Bolt_sta.jpg" = true)
    ∧ (process_row exNet ["card_images/Bolt_sta.jpg"] true [] exRow1).map (fun p => p.2)
      = some 1
    ∧ (process_row exNet ["card_images/Bolt_sta.jpg"] true [] exRow1).map
        (fun p => p.1.image_url)
      = some "card_images/Bolt_sta.jpg" :=
  ⟨by decide, by decide, by decide⟩

/-- Claim C2 (amended): when the cached image file still exists on disk, the
image-download step issues zero network calls and returns the cached local
path; the metadata lookup that precedes it in the pipeline, however, always
issues at least one network call per resolution. -/
theorem claim_C2_cached_artifact :
    (∀ (disk : List String) (ok : Bool) (image_url card_name set_code : String),
      image_url ≠ "" →
      disk.contains (CACHE_DIR ++ "/" ++ cache_filename image_url card_name set_code) = true →
      download_and_cache_image disk ok image_url card_name set_code
        = (some (CACHE_DIR ++ "/" ++ cache_filename image_url card_name set_code), 0))
    ∧ ∀ (net : String → QueryOutcome) (card_name set_code collector_number : String),
        1 ≤ (get_card_data_from_scryfall net card_name set_code collector_number).1 := by
  constructor
  · intro disk ok image_url card_name set_code hurl hdisk
    unfold download_and_cache_image
    rw [if_neg hurl, if_pos hdisk]
  · exact get_card_data_calls_pos

/-- Claim C2 witness: the amended theorem applied at a concrete cached file
and a concrete network oracle. -/
theorem claim_C2_witness :
    download_and_cache_image ["card_images/Bolt_sta.jpg"] true "http://c/a.jpg" "Bolt" "sta"
      = (some (CACHE_DIR ++ "/" ++ cache_filename "http://c/a.jpg" "Bolt" "sta"), 0)
    ∧ 1 ≤ (get_card_data_from_scryfall exNet "Bolt" "sta" "1").1 :=
  ⟨claim_C2_cached_artifact.1 ["card_images/Bolt_sta.jpg"] true "http://c/a.jpg" "Bolt" "sta"
      (by decide) (by decide),
    claim_C2_cached_artifact.2 exNet "Bolt" "sta" "1"⟩

/-- Claim C6 (counterexample): two identities that differ only in collector
number are cached under the SAME filename — the cache filename is built from
the sanitized name, the set code and the URL extension, without the collector
number — contradicting the claimed distinctness. -/
theorem claim_C6_counterexample :
    exRow1.collector_number ≠ exRow2.collector_number
    ∧ (process_row exNet [] true [] exRow1).map (fun p => p.1.image_url)
      = some "card_images/Bolt_sta.jpg"
    ∧ (process_row exNet [] true [] exRow2).map (fun p => p.1.image_url)
      = some "card_images/Bolt_sta.jpg" :=
  ⟨by decide, by decide, by decide⟩

/-- Claim C6 (amended): on first successful lookup the image binary is stored
once under a deterministic filename derived from the filesystem-sanitized
card name, the set code (slashes replaced) and the file extension of the
image URL; the collector number is not part of the filename, so identities
differing only in collector number share a cache filename whenever their
image URLs carry the same extension. -/
theorem claim_C6_filename_determinism :
    (∀ (disk : List String) (image_url card_name set_code : String),
      image_url ≠ "" →
      disk.contains (CACHE_DIR ++ "/" ++ cache_filename image_url card_name set_code) = false →
      download_and_cache_image disk true image_url card_name set_code
        = (some (CACHE_DIR ++ "/" ++ cache_filename image_url card_name set_code), 1))
    ∧ ∀ (u1 u2 n s : String), infer_file_extension u1 = infer_file_extension u2 →
        cache_filename u1 n s = cache_filename u2 n s := by
  constructor
  · intro disk image_url card_name set_code hurl hdisk
    unfold download_and_cache_image
    rw [if_neg hurl, if_neg (by intro hc; rw [hdisk] at hc; cases hc), if_pos rfl]
  · intro u1 u2 n s h
    unfold cache_filename
    rw [h]

/-- Claim C6 witness: the amended theorem applied at a concrete first
download and two concrete URLs with equal extensions. -/
theorem claim_C6_witness :
    download_and_cache_image [] true "http://c/a.jpg" "Bolt" "sta"
      = (some (CACHE_DIR ++ "/" ++ cache_filename "http://c/a.jpg" "Bolt" "sta"), 1)
    ∧ cache_filename "http://c/a1.jpg" "Bolt" "sta"
      = cache_filename "http://c/a2.jpg" "Bolt" "sta" :=
  ⟨claim_C6_filename_determinism.1 [] "http://c/a.jpg" "Bolt" "sta" (by decide) (by decide),
    claim_C6_filename_determinism.2 "http://c/a1.jpg" "http://c/a2.jpg" "Bolt" "sta" (by decide)⟩

end Sheet

/-- Claim C7 (counterexample): with the uppercase-keyed mapping ABC ↦ Shelf 1,
the pipeline resolver (`drawer_mapping.get(set_code, "Unknown")`) returns
different locations for "abc" and "ABC" — it consults the mapping with the
raw set code — while the GUI resolver normalizes; pipeline location
resolution is therefore case-sensitive, contradicting the claim that both
resolvers normalize to uppercase. -/
theorem claim_C7_counterexample :
    Sheet.drawer_lookup [("ABC", "Shelf 1")] "abc" = "Unknown"
    ∧ Sheet.drawer_lookup [("ABC", "Shelf 1")] "ABC" = "Shelf 1"
    ∧ Gui.get_location_for_set [("ABC", "Shelf 1")] "abc" = "Shelf 1" :=
  ⟨by decide, by decide, by decide⟩

/-- Claim C7 (amended): only the GUI resolver normalizes the queried set code
to uppercase before consulting the mapping: two non-empty set codes with the
same uppercasing resolve to the same location there, for every mapping. -/
theorem claim_C7_gui_case_insensitive (locations : List (String × String)) (s1 s2 : String)
    (h1 : s1 ≠ "") (h2 : s2 ≠ "") (h : PyModel.upper s1 = PyModel.upper s2) :
    Gui.get_location_for_set locations s1 = Gui.get_location_for_set locations s2 := by
  unfold Gui.get_location_for_set
  rw [if_neg h1, if_neg h2, h]

/-- Claim C7 witness: the amended theorem applied at the mapping ABC ↦
Shelf 1 and the set codes "abc" and "ABC". -/
theorem claim_C7_witness :
    Gui.get_location_for_set [("ABC", "Shelf 1")] "abc"
      = Gui.get_location_for_set [("ABC", "Shelf 1")] "ABC" :=
  claim_C7_gui_case_insensitive [("ABC", "Shelf 1")] "abc" "ABC" (by decide) (by decide)
    (by decide)

namespace Gui

open PyModel

theorem extract_loop_eq_first_populated (prices : List (String × Option String)) :
    ∀ fields, extract_loop prices fields = (first_populated prices fields).bind pyFloat
  | [] => rfl
  | t :: rest => by
    cases h : prices.lookup t with
    | none =>
      simp only [extract_loop, first_populated, h]
      exact extract_loop_eq_first_populated prices rest
    | some v =>
      cases v with
      | none =>
        simp only [extract_loop, first_populated, h]
        exact extract_loop_eq_first_populated prices rest
      | some s =>
        simp only [extract_loop, first_populated, h]
        by_cases hs : (s != "") = true
        · rw [if_pos hs, if_pos hs]
          rfl
        · rw [if_neg hs, if_neg hs]
          exact extract_loop_eq_first_populated prices rest

/-- Claim C8: the price lookup extracts its numeric result as the parsed
value of the first populated field of the fixed ordered candidate list (usd,
usd_foil, eur, eur_foil), and results — including not-found — are memoized in
the run's in-memory cache: a request whose identity key is already cached
returns the memoized value with zero network calls and an unchanged cache. -/
theorem claim_C8_price_extraction_memoized :
    (∀ prices, extract_price_from_data prices = (first_populated_price prices).bind pyFloat)
    ∧ ∀ (net : PriceNet) (cache : List (String × Option ℚ)) (card : GCard) (v : Option ℚ),
        cache.lookup (price_cache_key card) = some v →
        fetch_card_price net cache card = (v, cache, 0) := by
  constructor
  · intro prices
    exact extract_loop_eq_first_populated prices _
  · intro net cache card v h
    unfold fetch_card_price
    rw [h]

/-- Claim C8 witness: the memoization branch applied at a concrete cache
holding a memoized not-found result for the example card's key. -/
theorem claim_C8_witness :
    fetch_card_price ⟨.exc, .exc⟩ [("s_1_N", none)] exGCard = (none, [("s_1_N", none)], 0) :=
  claim_C8_price_extraction_memoized.2 ⟨.exc, .exc⟩ [("s_1_N", none)] exGCard none (by decide)

theorem load_progress_append_junk (states junk : List (String × Bool)) :
    ∀ (cards : List GCard) (grabbed : List String),
      (∀ p ∈ junk, ∀ c ∈ cards, p.1 ≠ card_key c) →
      load_progress_loop (states ++ junk) cards grabbed = load_progress_loop states cards grabbed
  | [], _, _ => rfl
  | c :: rest, grabbed, hjunk => by
    have hnone : junk.lookup (card_key c) = none := by
      rw [List.lookup_eq_none_iff]
      intro p hp
      exact bne_iff_ne.mpr (Ne.symm (hjunk p hp c (List.mem_cons_self ..)))
    have hl : (states ++ junk).lookup (card_key c) = states.lookup (card_key c) := by
      rw [List.lookup_append, hnone, Option.or_none]
    have hrest : ∀ p ∈ junk, ∀ x ∈ rest, p.1 ≠ card_key x :=
      fun p hp x hx => hjunk p hp x (List.mem_cons_of_mem _ hx)
    simp only [load_progress_loop, hl]
    cases h : states.lookup (card_key c) with
    | some b =>
      dsimp only
      rw [load_progress_append_junk states junk rest _ hrest]
    | none =>
      dsimp only
      rw [load_progress_append_junk states junk rest _ hrest]

theorem load_progress_cards_eq (states : List (String × Bool)) :
    ∀ (cards : List GCard) (grabbed : List String),
      (∀ c ∈ cards, c.grabbed = false) →
      (load_progress_loop states cards grabbed).1
        = cards.map (fun c => { c with grabbed := (states.lookup (card_key c)).getD false })
  | [], _, _ => rfl
  | c :: rest, grabbed, hfresh => by
    have hrest : ∀ x ∈ rest, x.grabbed = false :=
      fun x hx => hfresh x (List.mem_cons_of_mem _ hx)
    simp only [load_progress_loop, List.map_cons]
    cases h : states.lookup (card_key c) with
    | some b =>
      simp only [Option.getD_some]
      rw [load_progress_cards_eq states rest _ hrest]
    | none =>
      simp only [Option.getD_none]
      rw [load_progress_cards_eq states rest _ hrest]
      have hc := hfresh c (List.mem_cons_self ..)
      have hceq : ({ c with grabbed := false } : GCard) = c := by
        rw [← hc]
      rw [hceq]

/-- Claim C4: restoring a progress snapshot against a freshly loaded card
list is total and best-effort: snapshot entries whose composite keys match no
card are silently ignored (appending them to the snapshot changes nothing),
every card whose key occurs in the snapshot takes its grabbed state from the
snapshot, and every card whose key is absent stays not-grabbed. -/
theorem claim_C4_restore (states junk : List (String × Bool)) (cards : List GCard)
    (grabbed : List String)
    (hfresh : ∀ c ∈ cards, c.grabbed = false)
    (hjunk : ∀ p ∈ junk, ∀ c ∈ cards, p.1 ≠ card_key c) :
    load_progress_loop (states ++ junk) cards grabbed = load_progress_loop states cards grabbed
    ∧ (load_progress_loop states cards grabbed).1
      = cards.map (fun c => { c with grabbed := (states.lookup (card_key c)).getD false }) :=
  ⟨load_progress_append_junk states junk cards grabbed hjunk,
    load_progress_cards_eq states cards grabbed hfresh⟩

/-- Claim C4 witness: the restore theorem applied at a concrete snapshot
holding the key "o1A" and a junk entry "zz" absent from the freshly loaded
two-card list. -/
theorem claim_C4_witness :
    load_progress_loop ([("o1A", true)] ++ [("zz", true)]) [exG1, exG2] []
      = load_progress_loop [("o1A", true)] [exG1, exG2] []
    ∧ (load_progress_loop [("o1A", true)] [exG1, exG2] []).1
      = [exG1, exG2].map (fun c =>
          { c with
            grabbed := (([("o1A", true)] : List (String × Bool)).lookup (card_key c)).getD
              false }) :=
  claim_C4_restore [("o1A", true)] [("zz", true)] [exG1, exG2] [] (by decide) (by decide)

theorem mem_set_add_self (s : List String) (k : String) : k ∈ set_add s k := by
  unfold set_add
  split
  · assumption
  · exact List.mem_cons_self ..

theorem mem_set_add_iff_of_ne {k k' : String} (s : List String) (h : k' ≠ k) :
    (k' ∈ set_add s k ↔ k' ∈ s) := by
  unfold set_add
  split
  · exact Iff.rfl
  · simp [List.mem_cons, h]

theorem not_mem_set_discard_self (s : List String) (k : String) : k ∉ set_discard s k := by
  unfold set_discard
  intro hmem
  have := List.of_mem_filter hmem
  simp at this

theorem mem_set_discard_iff_of_ne {k k' : String} (s : List String) (h : k' ≠ k) :
    (k' ∈ set_discard s k ↔ k' ∈ s) := by
  unfold set_discard
  rw [List.mem_filter]
  simp [h]

theorem lookup_save_card_states :
    ∀ (cards : List GCard), (cards.map card_key).Nodup →
      ∀ (j : Nat) (hj : j < cards.length),
        (save_card_states cards).lookup (card_key (cards.get ⟨j, hj⟩))
          = some ((cards.get ⟨j, hj⟩).grabbed)
  | [], _, j, hj => absurd hj (by simp)
  | c :: rest, hnd, 0, _ => List.lookup_cons_self
  | c :: rest, hnd, j + 1, hj => by
    obtain ⟨hhead, htail⟩ := List.nodup_cons.mp hnd
    have hj' : j < rest.length := by simpa using hj
    have hne : card_key (rest.get ⟨j, hj'⟩) ≠ card_key c := by
      intro hk
      exact hhead (hk ▸ List.mem_map_of_mem card_key (rest.get_mem j hj'))
    show ((card_key c, c.grabbed) :: save_card_states rest).lookup
        (card_key (rest.get ⟨j, hj'⟩)) = some ((rest.get ⟨j, hj'⟩).grabbed)
    rw [List.lookup_cons]
    have hbeq : (card_key (rest.get ⟨j, hj'⟩) == card_key c) = false :=
      beq_eq_false_iff_ne.mpr hne
    rw [hbeq]
    exact lookup_save_card_states rest htail j hj'

theorem grabbed_matches_save (cards : List GCard) (grabbed : List String)
    (huniq : (cards.map card_key).Nodup) (hinv : grabbed_inv cards grabbed)
    (j : Nat) (hj : j < cards.length) :
    (card_key (cards.get ⟨j, hj⟩) ∈ grabbed
      ↔ (save_card_states cards).lookup (card_key (cards.get ⟨j, hj⟩)) = some true) := by
  rw [lookup_save_card_states cards huniq j hj, hinv j hj]
  simp

theorem toggle_preserves_keys (cards : List GCard) (i : Nat) (g : Bool) (grabbed : List String) :
    (toggle_grabbed cards i g grabbed).1.map card_key = cards.map card_key := by
  unfold toggle_grabbed
  cases hget : cards.get? i with
  | none => rfl
  | some c =>
    dsimp only
    rw [List.map_set]
    obtain ⟨hi, hci⟩ := List.get?_eq_some.mp hget
    apply List.ext_getElem?
    intro n
    rw [List.getElem?_set]
    by_cases hin : i = n
    · subst hin
      have hlen : i < (cards.map card_key).length := by simpa using hi
      rw [if_pos rfl, if_pos (by simpa using hi), List.getElem?_eq_getElem hlen,
        List.getElem_map]
      have : card_key ({ c with grabbed := g }) = card_key c := rfl
      rw [this, ← hci]
      rfl
    · rw [if_neg hin]

/-- The grabbed-flag toggle preserves the invariant when composite keys are
unique. -/
theorem toggle_preserves_inv (cards : List GCard) (grabbed : List String) (i : Nat) (g : Bool)
    (huniq : (cards.map card_key).Nodup) (hinv : grabbed_inv cards grabbed) :
    grabbed_inv (toggle_grabbed cards i g grabbed).1 (toggle_grabbed cards i g grabbed).2 := by
  unfold toggle_grabbed
  cases hget : cards.get? i with
  | none => exact hinv
  | some c =>
    dsimp only
    intro j hj
    have hj' : j < cards.length := by simpa using hj
    obtain ⟨hi, hci⟩ := List.get?_eq_some.mp hget
    have hgetj : (cards.set i { c with grabbed := g }).get ⟨j, hj⟩
        = if i = j then { c with grabbed := g } else cards.get ⟨j, hj'⟩ := by
      rw [List.get_eq_getElem, List.getElem_set]
      by_cases hij : i = j
      · rw [if_pos hij, if_pos hij]
      · rw [if_neg hij, if_neg hij, List.get_eq_getElem]
    by_cases hij : i = j
    · subst hij
      rw [hgetj, if_pos rfl]
      have hkey : card_key ({ c with grabbed := g }) = card_key c := rfl
      rw [hkey]
      cases g with
      | true =>
        rw [if_pos rfl]
        constructor
        · intro _
          rfl
        · intro _
          exact mem_set_add_self grabbed (card_key c)
      | false =>
        rw [if_neg Bool.false_ne_true]
        constructor
        · intro hmem
          exact absurd hmem (not_mem_set_discard_self grabbed (card_key c))
        · intro hfl
          exact Bool.noConfusion hfl
    · rw [hgetj, if_neg hij]
      have hne : card_key (cards.get ⟨j, hj'⟩) ≠ card_key c := by
        intro hk
        apply hij
        have hmi : i < (cards.map card_key).length := by simpa using hi
        have hmj : j < (cards.map card_key).length := by simpa using hj'
        rw [List.get_eq_getElem] at hci
        have hmapi : (cards.map card_key).get ⟨i, hmi⟩ = card_key c := by
          rw [List.get_eq_getElem, List.getElem_map, hci]
        have hmapj : (cards.map card_key).get ⟨j, hmj⟩ = card_key (cards.get ⟨j, hj'⟩) := by
          rw [List.get_eq_getElem, List.getElem_map]
          rfl
        have hfin : (⟨i, hmi⟩ : Fin (cards.map card_key).length) = ⟨j, hmj⟩ :=
          huniq.get_inj_iff.mp (by rw [hmapi, hmapj, hk])
        exact congrArg Fin.val hfin
      cases g with
      | true =>
        rw [if_pos rfl, mem_set_add_iff_of_ne grabbed hne]
        exact hinv j hj'
      | false =>
        rw [if_neg Bool.false_ne_true, mem_set_discard_iff_of_ne grabbed hne]
        exact hinv j hj'

/-- Claim C10: assuming composite keys (order id + card name) are unique
across the loaded cards, after any toggle of a card's grabbed state each
card's key is a member of the grabbed-cards set iff its grabbed flag is
true, so the persisted snapshot's grabbed-key list and key-to-boolean map
agree. -/
theorem claim_C10_toggle_invariant (cards : List GCard) (grabbed : List String)
    (i : Nat) (g : Bool)
    (huniq : (cards.map card_key).Nodup)
    (hinv : grabbed_inv cards grabbed) :
    grabbed_inv (toggle_grabbed cards i g grabbed).1 (toggle_grabbed cards i g grabbed).2
    ∧ ∀ (j : Nat) (hj : j < (toggle_grabbed cards i g grabbed).1.length),
        (card_key ((toggle_grabbed cards i g grabbed).1.get ⟨j, hj⟩)
            ∈ (toggle_grabbed cards i g grabbed).2
          ↔ (save_card_states (toggle_grabbed cards i g grabbed).1).lookup
              (card_key ((toggle_grabbed cards i g grabbed).1.get ⟨j, hj⟩)) = some true) := by
  have hpres := toggle_preserves_inv cards grabbed i g huniq hinv
  have huniq' : ((toggle_grabbed cards i g grabbed).1.map card_key).Nodup := by
    rw [toggle_preserves_keys]
    exact huniq
  exact ⟨hpres, fun j hj => grabbed_matches_save _ _ huniq' hpres j hj⟩

/-- Claim C10 witness: the toggle-invariant theorem applied at a concrete
two-card list with unique keys, empty grabbed set, toggling card 0 on. -/
theorem claim_C10_witness :
    grabbed_inv (toggle_grabbed [exG1, exG2] 0 true []).1
      (toggle_grabbed [exG1, exG2] 0 true []).2
    ∧ ∀ (j : Nat) (hj : j < (toggle_grabbed [exG1, exG2] 0 true []).1.length),
        (card_key ((toggle_grabbed [exG1, exG2] 0 true []).1.get ⟨j, hj⟩)
            ∈ (toggle_grabbed [exG1, exG2] 0 true []).2
          ↔ (save_card_states (toggle_grabbed [exG1, exG2] 0 true []).1).lookup
              (card_key ((toggle_grabbed [exG1, exG2] 0 true []).1.get ⟨j, hj⟩))
            = some true) :=
  claim_C10_toggle_invariant [exG1, exG2] [] 0 true (by decide)
    (by
      intro i h
      have h2 : i < 2 := by simpa using h
      interval_cases i
      · simp [exG1]
      · simp [exG2])

end Gui
